import Mathlib

/-!
Shallow embedding of the user-record validator of CRUDPract.

The repository declares a Mongoose schema (src/models/User.js):

  const userSchema = new mongoose.Schema({
    name: { type: String, required: true, trim: true },
  });

The operational meaning of these three declarative options, per Mongoose:
  * `trim: true` installs a setter that applies JavaScript
    String.prototype.trim to the incoming value before validation;
  * `required: true` for a String path fails validation when the value is
    null/omitted or when, after the setters have run, it is the empty string;
  * `type: String` casts non-string primitives (for example numbers) to
    their string representation before the setters run.

We embed this as the function validate_user_name on Option String
(none models an absent field), and validate_user_field on an input type
that also admits number values, to capture the cast step.
-/

namespace CRUDPract

/-- Character class removed by JavaScript String.prototype.trim: the
ECMAScript WhiteSpace and LineTerminator code points. -/
def isJsWhitespace (c : Char) : Bool :=
  [0x9, 0xA, 0xB, 0xC, 0xD, 0x20, 0xA0, 0x1680,
   0x2000, 0x2001, 0x2002, 0x2003, 0x2004, 0x2005, 0x2006, 0x2007,
   0x2008, 0x2009, 0x200A, 0x2028, 0x2029, 0x202F, 0x205F, 0x3000,
   0xFEFF].contains c.toNat

/-- Drop leading whitespace characters (String.prototype.trimStart). -/
def trimLeftChars (l : List Char) : List Char := l.dropWhile isJsWhitespace

/-- Drop trailing whitespace characters (String.prototype.trimEnd). -/
def trimRightChars (l : List Char) : List Char :=
  (l.reverse.dropWhile isJsWhitespace).reverse

/-- Character-list version of String.prototype.trim. -/
def jsTrimChars (l : List Char) : List Char := trimRightChars (trimLeftChars l)

/-- JavaScript String.prototype.trim, as applied by the schema's
`trim: true` setter. -/
def jsTrim (s : String) : String := String.mk (jsTrimChars s.toList)

/-- Validation errors of the user-record validator. MissingRequiredField is
what Mongoose's `required: true` raises; InvalidFieldType is the cast
failure an implementation may raise for uncastable non-string input. -/
inductive ValidationError where
  | MissingRequiredField (field : String)
  | InvalidFieldType (field : String)
deriving DecidableEq, Repr

instance {ε α : Type} [DecidableEq ε] [DecidableEq α] :
    DecidableEq (Except ε α) := fun
  | Except.ok a, Except.ok b =>
    if h : a = b then Decidable.isTrue (by simp [h])
    else Decidable.isFalse (by simp [h])
  | Except.ok _, Except.error _ => Decidable.isFalse (by simp)
  | Except.error _, Except.ok _ => Decidable.isFalse (by simp)
  | Except.error a, Except.error b =>
    if h : a = b then Decidable.isTrue (by simp [h])
    else Decidable.isFalse (by simp [h])

/-- The validator for the `name` path of userSchema (src/models/User.js,
lines 4-8): the `trim: true` setter runs first, then the `required: true`
check, which for a String path rejects an absent value and the empty
string. On success the stored value is the trimmed string. -/
def validate_user_name (input : Option String) : Except ValidationError String :=
  match input with
  | none => Except.error (ValidationError.MissingRequiredField "name")
  | some s =>
    if jsTrim s = "" then Except.error (ValidationError.MissingRequiredField "name")
    else Except.ok (jsTrim s)

/-- Primitive values a caller may hand to the schema path: a string, or a
non-string primitive such as a number, which Mongoose's `type: String`
casts before the setters run. -/
inductive MongooseValue where
  | str (s : String)
  | num (n : Int)
deriving DecidableEq, Repr

/-- Mongoose's cast to a String path: strings pass through, numbers are
converted to their decimal representation (JavaScript String(n)); a value
whose cast fails would yield none. -/
def castToStringField : MongooseValue → Option String
  | MongooseValue.str s => some s
  | MongooseValue.num n => some (toString n)

/-- The full pipeline for the `name` path including the `type: String`
cast step, followed by validate_user_name. -/
def validate_user_field (v : Option MongooseValue) : Except ValidationError String :=
  match v with
  | none => Except.error (ValidationError.MissingRequiredField "name")
  | some jv =>
    match castToStringField jv with
    | none => Except.error (ValidationError.InvalidFieldType "name")
    | some s => validate_user_name (some s)

/-! Helper lemmas about dropWhile and the two one-sided trims. -/

theorem dropWhile_head_not {α : Type} {p : α → Bool} {l : List α} {c : α}
    (h : (l.dropWhile p).head? = some c) : p c = false := by
  induction l with
  | nil => simp [List.dropWhile] at h
  | cons a t ih =>
    rw [List.dropWhile_cons] at h
    cases hpa : p a with
    | true => rw [hpa] at h; simp at h; exact ih h
    | false => rw [hpa] at h; simp at h; rw [← h]; exact hpa

theorem dropWhile_eq_self_of_head {α : Type} {p : α → Bool} {l : List α}
    (h : ∀ c, l.head? = some c → p c = false) : l.dropWhile p = l := by
  cases l with
  | nil => rfl
  | cons a t => rw [List.dropWhile_cons, if_neg (by simp [h a rfl])]

theorem dropWhile_self_idem {α : Type} {p : α → Bool} (l : List α) :
    (l.dropWhile p).dropWhile p = l.dropWhile p :=
  dropWhile_eq_self_of_head (fun _ hc => dropWhile_head_not hc)

theorem dropWhile_eq_self_of_mem {α : Type} {p : α → Bool} {l : List α}
    (h : ∀ c ∈ l, p c = false) : l.dropWhile p = l :=
  dropWhile_eq_self_of_head
    (fun c hc => h c (List.mem_of_mem_head? (Option.mem_def.mpr hc)))

theorem trimRightChars_idem (l : List Char) :
    trimRightChars (trimRightChars l) = trimRightChars l := by
  unfold trimRightChars
  rw [List.reverse_reverse, dropWhile_self_idem]

theorem trimRight_decomp (l : List Char) :
    l = trimRightChars l ++ (l.reverse.takeWhile isJsWhitespace).reverse := by
  unfold trimRightChars
  conv_lhs => rw [← List.reverse_reverse l,
    ← List.takeWhile_append_dropWhile isJsWhitespace l.reverse]
  rw [List.reverse_append]

theorem trimRightChars_head {l : List Char} {c : Char}
    (h : (trimRightChars l).head? = some c) : l.head? = some c := by
  conv_lhs => rw [trimRight_decomp l]
  rw [List.head?_append, h]
  rfl

theorem trimRightChars_getLast_not {l : List Char} {c : Char}
    (h : (trimRightChars l).getLast? = some c) : isJsWhitespace c = false := by
  unfold trimRightChars at h
  rw [List.getLast?_reverse] at h
  exact dropWhile_head_not h

theorem jsTrimChars_head_not {l : List Char} {c : Char}
    (h : (jsTrimChars l).head? = some c) : isJsWhitespace c = false := by
  unfold jsTrimChars at h
  have h2 := trimRightChars_head h
  unfold trimLeftChars at h2
  exact dropWhile_head_not h2

theorem jsTrimChars_getLast_not {l : List Char} {c : Char}
    (h : (jsTrimChars l).getLast? = some c) : isJsWhitespace c = false := by
  unfold jsTrimChars at h
  exact trimRightChars_getLast_not h

theorem trimLeft_jsTrimChars (l : List Char) :
    trimLeftChars (jsTrimChars l) = jsTrimChars l := by
  unfold trimLeftChars
  exact dropWhile_eq_self_of_head (fun _ hc => jsTrimChars_head_not hc)

theorem jsTrimChars_idem (l : List Char) :
    jsTrimChars (jsTrimChars l) = jsTrimChars l := by
  have h1 : jsTrimChars (jsTrimChars l)
      = trimRightChars (trimLeftChars (jsTrimChars l)) := rfl
  rw [h1, trimLeft_jsTrimChars]
  show trimRightChars (trimRightChars (trimLeftChars l)) = _
  rw [trimRightChars_idem]
  rfl

theorem jsTrimChars_eq_self_of_no_ws {l : List Char}
    (h : ∀ c ∈ l, isJsWhitespace c = false) : jsTrimChars l = l := by
  unfold jsTrimChars trimLeftChars trimRightChars
  rw [dropWhile_eq_self_of_mem h,
    dropWhile_eq_self_of_mem (fun c hc => h c (List.mem_reverse.mp hc)),
    List.reverse_reverse]

theorem trimRightChars_append_ws {pad : List Char}
    (hp : ∀ c ∈ pad, isJsWhitespace c = true) (m : List Char) :
    trimRightChars (m ++ pad) = trimRightChars m := by
  unfold trimRightChars
  rw [List.reverse_append,
    List.dropWhile_append_of_pos (fun a ha => hp a (List.mem_reverse.mp ha))]

theorem jsTrimChars_pad {p1 p2 : List Char}
    (h1 : ∀ c ∈ p1, isJsWhitespace c = true)
    (h2 : ∀ c ∈ p2, isJsWhitespace c = true) (l : List Char) :
    jsTrimChars (p1 ++ l ++ p2) = jsTrimChars l := by
  unfold jsTrimChars trimLeftChars
  rw [List.append_assoc, List.dropWhile_append_of_pos h1, List.dropWhile_append]
  by_cases he : (l.dropWhile isJsWhitespace).isEmpty
  · rw [if_pos he]
    have hp2 : p2.dropWhile isJsWhitespace = [] := by
      have h0 := @List.dropWhile_append_of_pos Char isJsWhitespace p2 [] h2
      rw [List.append_nil] at h0
      simpa using h0
    rw [hp2, List.isEmpty_iff.mp he]
  · rw [if_neg he]
    exact trimRightChars_append_ws h2 _

theorem jsTrimChars_decomp (l : List Char) :
    ∃ a b, l = a ++ jsTrimChars l ++ b := by
  refine ⟨l.takeWhile isJsWhitespace,
    ((l.dropWhile isJsWhitespace).reverse.takeWhile isJsWhitespace).reverse, ?_⟩
  conv_lhs => rw [← List.takeWhile_append_dropWhile isJsWhitespace l]
  rw [List.append_assoc]
  congr 1
  exact trimRight_decomp _

/-! String-level bridges. -/

theorem jsTrim_toList (s : String) : (jsTrim s).toList = jsTrimChars s.toList := rfl

theorem jsTrim_idem (s : String) : jsTrim (jsTrim s) = jsTrim s := by
  apply String.ext
  show jsTrimChars (jsTrimChars s.data) = jsTrimChars s.data
  exact jsTrimChars_idem _

theorem jsTrim_eq_empty_iff (s : String) :
    jsTrim s = "" ↔ jsTrimChars s.toList = [] := String.ext_iff

theorem jsTrim_eq_self_of_no_ws {s : String}
    (h : ∀ c ∈ s.toList, isJsWhitespace c = false) : jsTrim s = s := by
  apply String.ext
  show jsTrimChars s.data = s.data
  exact jsTrimChars_eq_self_of_no_ws h

theorem validate_some_ok_iff (s t : String) :
    validate_user_name (some s) = Except.ok t ↔ (jsTrim s ≠ "" ∧ t = jsTrim s) := by
  unfold validate_user_name
  by_cases h : jsTrim s = ""
  · simp [h]
  · simp [h, eq_comm]

/-! Claim theorems. -/

/-- C1: for every input string that is non-empty after trimming,
validate_user_name succeeds and its output is exactly the input with
leading and trailing whitespace removed. -/
theorem C1_validate_user_name_trims (s : String) (h : jsTrim s ≠ "") :
    validate_user_name (some s) = Except.ok (jsTrim s) := by
  simp only [validate_user_name]
  rw [if_neg h]

/-- Witness for C1 at the spec's scenario: input "  Alice  " yields "Alice". -/
theorem C1_witness : validate_user_name (some "  Alice  ") = Except.ok "Alice" := by
  have h := C1_validate_user_name_trims "  Alice  " (by decide)
  rw [h]
  decide

/-- C2: validate_user_name fails, and fails with MissingRequiredField "name",
exactly when the input is absent or reduces to the empty string after
trimming; in particular on absent, "" and "   ". -/
theorem C2_missing_required_iff :
    (∀ o : Option String, (∃ e, validate_user_name o = Except.error e) ↔
        (o = none ∨ ∃ s, o = some s ∧ jsTrim s = "")) ∧
    (∀ o e, validate_user_name o = Except.error e →
        e = ValidationError.MissingRequiredField "name") ∧
    validate_user_name none
      = Except.error (ValidationError.MissingRequiredField "name") ∧
    validate_user_name (some "")
      = Except.error (ValidationError.MissingRequiredField "name") ∧
    validate_user_name (some "   ")
      = Except.error (ValidationError.MissingRequiredField "name") := by
  refine ⟨?_, ?_, by decide, by decide, by decide⟩
  · intro o
    cases o with
    | none => simp [validate_user_name]
    | some s =>
      by_cases h : jsTrim s = ""
      · simp [validate_user_name, h]
      · simp [validate_user_name, h]
  · intro o e he
    cases o with
    | none =>
      simp [validate_user_name] at he
      exact he.symm
    | some s =>
      simp only [validate_user_name] at he
      by_cases h : jsTrim s = ""
      · rw [if_pos h] at he
        simp at he
        exact he.symm
      · rw [if_neg h] at he
        exact absurd he (by simp)

/-- Witness for C2: the absent input does produce an error. -/
theorem C2_witness : ∃ e, validate_user_name none = Except.error e :=
  (C2_missing_required_iff.1 none).mpr (Or.inl rfl)

/-- C3 counterexample: the empty string has no characters at all, hence
contains only non-whitespace characters vacuously, yet validate_user_name
on it fails instead of returning it unchanged. -/
theorem C3_counterexample :
    "".toList = ([] : List Char) ∧
    validate_user_name (some "")
      = Except.error (ValidationError.MissingRequiredField "name") :=
  ⟨rfl, by decide⟩

/-- C3 (amended): for all non-empty strings s containing only
non-whitespace characters, validate_user_name succeeds and returns s
unchanged. -/
theorem C3_no_ws_fixed (s : String) (hne : s ≠ "")
    (h : ∀ c ∈ s.toList, isJsWhitespace c = false) :
    validate_user_name (some s) = Except.ok s := by
  simp only [validate_user_name]
  rw [jsTrim_eq_self_of_no_ws h, if_neg hne]

/-- Witness for the amended C3 at the whitespace-free input "Alice". -/
theorem C3_witness : validate_user_name (some "Alice") = Except.ok "Alice" :=
  C3_no_ws_fixed "Alice" (by decide) (by decide)

/-- C4: surrounding any input with two extra spaces on each side never
changes the result of validate_user_name, success value or failure. -/
theorem C4_pad_invariant (s : String) :
    validate_user_name (some ("  " ++ s ++ "  ")) = validate_user_name (some s) := by
  have ht : jsTrim ("  " ++ s ++ "  ") = jsTrim s := by
    apply String.ext
    show jsTrimChars (("  " ++ s ++ "  ").data) = jsTrimChars s.data
    rw [String.data_append, String.data_append]
    exact jsTrimChars_pad (by decide) (by decide) s.data
  simp only [validate_user_name]
  rw [ht]

/-- C5: acceptance depends only on the input being non-empty after
trimming; no length limit or character restriction causes failure. -/
theorem C5_accept_iff (s : String) :
    (∃ t, validate_user_name (some s) = Except.ok t) ↔ jsTrim s ≠ "" := by
  constructor
  · rintro ⟨t, ht⟩
    exact ((validate_some_ok_iff s t).mp ht).1
  · intro h
    exact ⟨jsTrim s, (validate_some_ok_iff s _).mpr ⟨h, rfl⟩⟩

/-- Witness for C5: a long input full of punctuation and digits is accepted. -/
theorem C5_witness :
    ∃ t, validate_user_name
      (some "x!@#$%^&*()_+ yz 0123456789 0123456789 0123456789") = Except.ok t :=
  (C5_accept_iff _).mpr (by decide)

/-- C6: validate_user_name is a pure function of its argument: two
invocations on equal inputs produce identical results. -/
theorem C6_deterministic (o1 o2 : Option String) (h : o1 = o2) :
    validate_user_name o1 = validate_user_name o2 := by
  rw [h]

/-- Witness for C6 at a concrete repeated invocation. -/
theorem C6_witness :
    validate_user_name (some "Bob") = validate_user_name (some "Bob") :=
  C6_deterministic (some "Bob") (some "Bob") rfl

/-- C7: an absent name is never defaulted: it always yields the failure,
never a success value, and the only correction applied to any accepted
input is the trimming step. -/
theorem C7_no_default :
    validate_user_name none
      = Except.error (ValidationError.MissingRequiredField "name") ∧
    (∀ t, validate_user_name none ≠ Except.ok t) ∧
    (∀ s t, validate_user_name (some s) = Except.ok t → t = jsTrim s) := by
  refine ⟨by decide, ?_, ?_⟩
  · intro t h
    simp [validate_user_name] at h
  · intro s t h
    exact ((validate_some_ok_iff s t).mp h).2

/-- Witness for C7: the accepted value for "  Alice  " is its trimming. -/
theorem C7_witness : "Alice" = jsTrim "  Alice  " :=
  C7_no_default.2.2 "  Alice  " "Alice" (by decide)

/-- C8: the number 42 is not rejected with an InvalidFieldType error: it is
cast to its string representation "42" and accepted. -/
theorem C8_number_cast :
    castToStringField (MongooseValue.num 42) = some "42" ∧
    validate_user_field (some (MongooseValue.num 42)) = Except.ok "42" :=
  ⟨by decide, by decide⟩

/-- C9: every successful output is a fixed point of the validator: running
it again succeeds with the same string, and the output has no leading or
trailing whitespace. -/
theorem C9_fixed_point (s t : String)
    (h : validate_user_name (some s) = Except.ok t) :
    validate_user_name (some t) = Except.ok t ∧
    (∀ c, t.toList.head? = some c → isJsWhitespace c = false) ∧
    (∀ c, t.toList.getLast? = some c → isJsWhitespace c = false) := by
  obtain ⟨hne, ht⟩ := (validate_some_ok_iff s t).mp h
  subst ht
  refine ⟨?_, ?_, ?_⟩
  · exact (validate_some_ok_iff _ _).mpr
      ⟨by rw [jsTrim_idem]; exact hne, (jsTrim_idem s).symm⟩
  · intro c hc
    rw [jsTrim_toList] at hc
    exact jsTrimChars_head_not hc
  · intro c hc
    rw [jsTrim_toList] at hc
    exact jsTrimChars_getLast_not hc

/-- Witness for C9: the output for "  Bo b  " validates to itself. -/
theorem C9_witness : validate_user_name (some "Bo b") = Except.ok "Bo b" :=
  (C9_fixed_point "  Bo b  " "Bo b" (by decide)).1

/-- C10: on success the output is a contiguous substring of the input:
the input splits as a prefix, the output, and a suffix, so all interior
characters are preserved unchanged and in order. -/
theorem C10_substring_output (s t : String)
    (h : validate_user_name (some s) = Except.ok t) :
    ∃ a b, s.toList = a ++ t.toList ++ b := by
  obtain ⟨hne, ht⟩ := (validate_some_ok_iff s t).mp h
  subst ht
  rw [jsTrim_toList]
  exact jsTrimChars_decomp s.toList

/-- Witness for C10 at the input "  Alice  " with output "Alice". -/
theorem C10_witness :
    ∃ a b, "  Alice  ".toList = a ++ "Alice".toList ++ b :=
  C10_substring_output "  Alice  " "Alice" (by decide)

end CRUDPract
